import Mathlib

/-
Verification of `muxer.py`, an interactive tmux session launcher.

The program's pure logic is embedded shallowly:
* Python strings are Lean `String`s; all string primitives used by the program
  (`in`, `startswith`, `endswith`, `strip`, `split`, slicing, `Path.stem`) are
  re-implemented below on `String.data` so that they mirror CPython semantics
  and evaluate by kernel reduction.
* Filesystem paths are modelled as lists of path segments (`List String`);
  the relevant filesystem state is a record of existing directories and
  directory entries (`FS`).
* Effects (subprocess launches, the fuzzy-picker UI) are modelled by passing
  the external behaviour in as a function and returning the list of issued
  invocations.
-/

/-- Split a character list at every character satisfying `p`; building block of
Python `str.split` (empty fields are filtered by the callers, as CPython's
no-argument `split` does). -/
def splitBy (p : Char → Bool) : List Char → List (List Char)
  | [] => [[]]
  | c :: rest =>
    let r := splitBy p rest
    if p c then [] :: r
    else
      match r with
      | [] => [[c]]
      | h :: t => (c :: h) :: t

/-- The path segments of a POSIX path string: split on `/`, dropping empty
segments (this is how `pathlib.Path` normalises `~/code/` or doubled slashes). -/
def segsOf (line : String) : List String :=
  ((splitBy (fun c => c = '/') line.data).map String.mk).filter (fun s => s ≠ "")

/-- Python's substring test `pat in hay` on character lists. -/
def infixOfChars (pat : List Char) : List Char → Bool
  | [] => pat.isEmpty
  | c :: t => pat.isPrefixOf (c :: t) || infixOfChars pat t

/-- Python `pat in hay` for strings (case-sensitive substring containment). -/
def pyIn (pat hay : String) : Bool := infixOfChars pat.data hay.data

/-- Python `s.startswith(p)`. -/
def pyStartswith (s p : String) : Bool := p.data.isPrefixOf s.data

/-- Python `s.endswith(p)`. -/
def pyEndswith (s p : String) : Bool := p.data.reverse.isPrefixOf s.data.reverse

/-- Python `s.strip()`: drop leading and trailing whitespace. -/
def pyStrip (s : String) : String :=
  String.mk (((s.data.dropWhile Char.isWhitespace).reverse.dropWhile Char.isWhitespace).reverse)

/-- Python slicing `s[n:]`. -/
def pyDrop (s : String) (n : Nat) : String := String.mk (s.data.drop n)

/-- Python slicing `s[:-1]`. -/
def pyDropLast (s : String) : String := String.mk s.data.dropLast

/-- Index of the last occurrence of `.` in a character list (Python `rfind`). -/
def rfindDot : List Char → Option Nat
  | [] => none
  | c :: rest =>
    match rfindDot rest with
    | some i => some (i + 1)
    | none => if c = '.' then some 0 else none

/-- CPython `pathlib.PurePath.stem` applied to a file name: the name with its
last suffix removed, where a suffix needs a dot at index `0 < i < len - 1`. -/
def pyStem (name : String) : String :=
  match rfindDot name.data with
  | some i => if 0 < i ∧ i < name.data.length - 1 then String.mk (name.data.take i) else name
  | none => name

/-- Python no-argument `s.split()`: split on whitespace runs, no empty fields. -/
def pySplitWs (s : String) : List String :=
  ((splitBy Char.isWhitespace s.data).map String.mk).filter (fun t => t ≠ "")

/-- Python `c in s` for a single character `c`. -/
def containsChar (s : String) (c : Char) : Bool := s.data.contains c

/-- The final segment of a segment-list path (`pathlib.Path.name`). -/
def lastSeg (p : List String) : String := p.getLast?.getD ""

/-- Code-point lexicographic `≤` on character lists: the order Python's string
comparison (and hence `sorted`) uses. -/
def lexLe : List Char → List Char → Bool
  | [], _ => true
  | _ :: _, [] => false
  | a :: as, b :: bs => if a < b then true else if a = b then lexLe as bs else false

/-- Python string `≤` (code-point lexicographic). -/
def strLe (a b : String) : Prop := lexLe a.data b.data = true

instance : DecidableRel strLe := fun a b => inferInstanceAs (Decidable (lexLe a.data b.data = true))

/-- Python `sorted` on a list of strings. -/
def sortStrs (l : List String) : List String := List.insertionSort strLe l

/-- Model of the filesystem state the program consults: the set of existing
directories (for `Path.is_dir`) and the set of directory entries (for
`Path.glob`), both as absolute segment-list paths. -/
structure FS where
  dirs : List (List String)
  entries : List (List String)

/-- `Path.glob("*")`: the immediate children of `p` among the filesystem
entries; the `*` pattern does not match names starting with a dot. -/
def globStar (fs : FS) (p : List String) : List (List String) :=
  fs.entries.filter (fun e =>
    decide (e.length = p.length + 1 ∧ e.take p.length = p ∧ pyStartswith (lastSeg e) "." = false))

/-- `Path(line).expanduser()`: parse a rule-file line as a path, expanding a
leading `~` to the home directory. -/
def expanduser (home : List String) (line : String) : List String :=
  match segsOf line with
  | "~" :: rest => home ++ rest
  | parts => parts

/-- The loop state of `get_local_directories`: the accumulated candidate
directories and the exclusion set. -/
structure RuleState where
  directories : List (List String)
  excludes : List (List String)

/-- One iteration of the rule-file loop in `get_local_directories`: a line
starting with `!` adds to the exclusion set, and then (independently — the
source has no `elif`) a line ending in `*` is glob-expanded while any other
line is appended literally. -/
def processLine (fs : FS) (home : List String) (st : RuleState) (line : String) : RuleState :=
  let excl := if pyStartswith line "!" then st.excludes ++ [expanduser home (pyDrop line 1)] else st.excludes
  let dirs :=
    if pyEndswith line "*" then st.directories ++ globStar fs (expanduser home (pyDropLast line))
    else st.directories ++ [expanduser home line]
  RuleState.mk dirs excl

/-- The inner `valid(dir)` predicate of `get_local_directories`: the query must
occur in the directory's *stem*, the directory must exist, its stem must not
start with `.`, and it must not be excluded. -/
def valid (fs : FS) (excludes : List (List String)) (query : String) (dir : List String) : Bool :=
  pyIn query (pyStem (lastSeg dir)) &&
  decide (dir ∈ fs.dirs) &&
  !(pyStartswith (pyStem (lastSeg dir)) ".") &&
  !(decide (dir ∈ excludes))

/-- The home-relative string of a path under home (the `str(...)` of
`Path.relative_to(HOME)` when it succeeds). -/
def relStr (home p : List String) : String :=
  if p.drop home.length = [] then "." else String.intercalate "/" (p.drop home.length)

/-- `Path.relative_to(HOME)` as a total function: `none` models the
`ValueError` raised when the path does not lie under the home directory. -/
def relative_to (home p : List String) : Option String :=
  if p.take home.length = home then some (relStr home p) else none

/-- Map `relative_to` over a list of paths, failing (as the Python `map` inside
`sorted` does, by raising) if any path is not under home. -/
def relAll (home : List String) : List (List String) → Option (List String)
  | [] => some []
  | d :: rest =>
    match relative_to home d, relAll home rest with
    | some s, some l => some (s :: l)
    | _, _ => none

/-- The built-in default rule lines used when `~/.muxer.rc` is absent. -/
def defaultCandidates : List String := ["~/notes", "~/Syncthing", "~/scratch", "~/code/*"]

/-- The rule-file loop of `get_local_directories`, run over all lines. -/
def ruleState (fs : FS) (home : List String) (candidates : List String) : RuleState :=
  candidates.foldl (processLine fs home) (RuleState.mk [] [])

/-- The candidate directories of `get_local_directories` that survive the
`valid` filter (the value of `valid_dirs` in the source). -/
def validDirs (fs : FS) (home : List String) (candidates : List String) (query : String) :
    List (List String) :=
  (ruleState fs home candidates).directories.filter
    (valid fs (ruleState fs home candidates).excludes query)

/-- `get_local_directories(query)`. `muxerrc` is the rule file's lines when the
file exists, `none` when it is absent; the result is `none` when the function
raises (a surviving path outside the home tree). -/
def get_local_directories (fs : FS) (home : List String) (muxerrc : Option (List String))
    (query : String) : Option (List String) :=
  (relAll home (validDirs fs home (muxerrc.getD defaultCandidates) query)).map sortStrs

/-- The `valid` filter as claim C3's words state it: the query must occur in
the *final path segment* (not its stem), and non-hiddenness is judged on the
final segment. Used only to compare the spec's wording with the source. -/
def validFinalSeg (fs : FS) (excludes : List (List String)) (query : String)
    (dir : List String) : Bool :=
  pyIn query (lastSeg dir) &&
  decide (dir ∈ fs.dirs) &&
  !(pyStartswith (lastSeg dir) ".") &&
  !(decide (dir ∈ excludes))

/-- Directory discovery as claim C3's words state it (final-segment matching);
compare with `get_local_directories`. -/
def discover_directories_claimC3 (fs : FS) (home : List String) (muxerrc : Option (List String))
    (query : String) : Option (List String) :=
  (relAll home
    ((ruleState fs home (muxerrc.getD defaultCandidates)).directories.filter
      (validFinalSeg fs (ruleState fs home (muxerrc.getD defaultCandidates)).excludes query))).map
    sortStrs

/-- One step of the accumulation loop of `get_ssh_hosts`: a line that starts
with the four characters `Host` and contains no `*` contributes its
whitespace-separated tokens after the first. -/
def hostStep (acc : List String) (line : String) : List String :=
  if pyStartswith line "Host" && !(containsChar line '*') then
    acc ++ (pySplitWs line).drop 1
  else acc

/-- The alias candidates accumulated by the loop of `get_ssh_hosts`. -/
def hostTokens (config : List String) : List String :=
  config.foldl hostStep []

/-- `get_ssh_hosts(query)` on the lines of `~/.ssh/config`. -/
def get_ssh_hosts (config : List String) (query : String) : List String :=
  sortStrs
    (((if query ≠ "" then (hostTokens config).filter (fun c => pyIn query c)
       else hostTokens config)).map (fun x => "ssh: " ++ x))

/-- How a Python-level failure of the program surfaces to the user. -/
inductive Failure where
  | uncaughtException (name : String)
  | userMessage (msg : String)
deriving DecidableEq

/-- `get_ssh_hosts` including its file access: `read_text()` on a missing
`~/.ssh/config` raises `FileNotFoundError`, and no handler exists anywhere in
`muxer.py`, so the exception propagates as an uncaught traceback. -/
def get_ssh_hosts_io (config : Option (List String)) (query : String) :
    Except Failure (List String) :=
  match config with
  | none => Except.error (Failure.uncaughtException "FileNotFoundError")
  | some lines => Except.ok (get_ssh_hosts lines query)

/-- `choose(listy, prompt, query)`: the interactive fuzzy picker is modelled by
`ui`; the second component counts how many times `iterfzf` is invoked. -/
def choose (ui : List String → Option String) (listy : List String) : Option String × Nat :=
  match listy with
  | [] => (none, 0)
  | [only] => (some only, 0)
  | multi => (ui multi, 1)

/-- The token clean-up of `log_and_run`: `[c.strip() for c in command if c]`.
Tokens are `Option String` because the source passes `None` for an absent
shell command; `if c` drops `None` and the empty string (Python falsiness),
then the survivors are stripped. -/
def strippedTokens (command : List (Option String)) : List String :=
  ((command.filterMap id).filter (fun c => c ≠ "")).map pyStrip

/-- `log_and_run(command)`: runs the cleaned-up command once via the ambient
process runner `run` and returns its raw captured stdout. -/
def log_and_run (run : List String → String) (command : List (Option String)) : String :=
  run (strippedTokens command)

/-- Token clean-up as claim C9's words state it: *all blank* (empty or
whitespace-only) tokens are removed and the rest stripped. Used only to
compare the spec's wording with the source. -/
def strippedTokens_claimC9 (command : List (Option String)) : List String :=
  ((command.filterMap id).filter (fun c => pyStrip c ≠ "")).map pyStrip

/-- A representative rendering of `tmux ls` output: one line per live session,
starting with the session's name. Real tmux output never contains a backspace
character (U+0008). -/
def tmuxLs (sessions : List String) : String :=
  String.intercalate "\n" (sessions.map (fun s => s ++ ": 1 windows"))

/-- `tmux_has_session(session)`: the source evaluates
`re.search(f"\b{session}\b", out)` where the pattern is a *non-raw* f-string,
so `\b` is the backspace character U+0008, not a regex word boundary. For a
session name free of regex metacharacters (all names in this development) the
regex search is therefore a literal substring search for
`"\x08" ++ session ++ "\x08"` in the `tmux ls` output. -/
def tmux_has_session (lsOut : String) (session : String) : Bool :=
  pyIn ("\x08" ++ session ++ "\x08") lsOut

/-- The `Muxer` target descriptor; `dir` holds the `["-c", dir]` argument pair
built in `__init__` (empty when no working directory was given). -/
structure Muxer where
  name : String
  command : Option String
  dir : List String

/-- `Muxer.__init__`: `self.dir = ["-c", dir] if dir else []`. -/
def Muxer.make (name : String) (command : Option String) (dir : Option String) : Muxer :=
  Muxer.mk name command
    (match dir with
     | some d => if d = "" then [] else ["-c", d]
     | none => [])

/-- `Muxer.new_session()`: the list of tmux invocations issued, in order, as
the literal token lists handed to `log_and_run`. `lsOut` is the `tmux ls`
output at call time and `withinTmux` the truthiness of `$TMUX`. -/
def Muxer.new_session (withinTmux : Bool) (lsOut : String) (m : Muxer) :
    List (List (Option String)) :=
  (if tmux_has_session lsOut m.name then []
   else
     [[some "tmux", some "new-session", some (if withinTmux then "-d" else "-A"), some "-s",
        some m.name] ++ m.dir.map some ++ [m.command]]) ++
  (if withinTmux then [[some "tmux", some "switch-client", some "-t", some m.name]]
   else [[some "tmux", some "attach", some "-t", some m.name]])

/-- An invocation is a session-creation call when it starts `tmux new-session`. -/
def isCreateCall (call : List (Option String)) : Bool :=
  decide (call.take 2 = [some "tmux", some "new-session"])

/-- Number of session-creation calls among a list of invocations. -/
def createCount (calls : List (List (Option String))) : Nat :=
  (calls.filter isCreateCall).length

/-- Concrete filesystem for the C3 counterexample: one existing directory
`/home/u/proj.v2`. -/
def fsC3 : FS := FS.mk [["home", "u", "proj.v2"]] [["home", "u", "proj.v2"]]

/-- Concrete filesystem with two plain directories under home. -/
def fsAB : FS := FS.mk [["home", "u", "alpha"], ["home", "u", "beta"]] []

/-- Concrete filesystem with one directory `/home/u/code/x`. -/
def fsCX : FS := FS.mk [["home", "u", "code", "x"]] [["home", "u", "code", "x"]]

/-- Concrete filesystem with one directory `/opt/proj`, outside home. -/
def fsOpt : FS := FS.mk [["opt", "proj"]] [["opt", "proj"]]

/-- The SSH config of the spec's scenario. -/
def demoSshConfig : List String := ["Host myserver", "  HostName 1.2.3.4", "Host *.internal"]

/-- A trivial interactive UI (always cancels), for witnesses. -/
def uiNone : List String → Option String := fun _ => none

/-- A trivial process runner (always empty stdout), for witnesses. -/
def runNull : List String → String := fun _ => ""

/-- `lexLe` is total. -/
theorem lexLe_total : ∀ as bs : List Char, lexLe as bs = true ∨ lexLe bs as = true
  | [], _ => Or.inl rfl
  | _ :: _, [] => Or.inr rfl
  | a :: as, b :: bs => by
    rcases lt_trichotomy a b with h | h | h
    · exact Or.inl (by simp [lexLe, h])
    · subst h
      rcases lexLe_total as bs with ih | ih
      · exact Or.inl (by simp [lexLe, lt_irrefl, ih])
      · exact Or.inr (by simp [lexLe, lt_irrefl, ih])
    · exact Or.inr (by simp [lexLe, h])

/-- `lexLe` is transitive. -/
theorem lexLe_trans : ∀ as bs cs : List Char,
    lexLe as bs = true → lexLe bs cs = true → lexLe as cs = true
  | [], _, _, _, _ => rfl
  | _ :: _, [], _, h1, _ => by simp [lexLe] at h1
  | _ :: _, _ :: _, [], _, h2 => by simp [lexLe] at h2
  | a :: as, b :: bs, c :: cs, h1, h2 => by
    simp only [lexLe] at h1 h2 ⊢
    by_cases hab : a < b
    · by_cases hbc : b < c
      · simp [lt_trans hab hbc]
      · by_cases hbc' : b = c
        · subst hbc'; simp [hab]
        · simp [hbc, hbc'] at h2
    · by_cases hab' : a = b
      · subst hab'
        simp only [lt_irrefl, if_false, if_pos rfl] at h1
        by_cases hbc : a < c
        · simp [hbc]
        · by_cases hbc' : a = c
          · subst hbc'
            simp only [lt_irrefl, if_false, if_pos rfl] at h2 ⊢
            exact lexLe_trans as bs cs h1 h2
          · simp [hbc, hbc'] at h2
      · simp [hab, hab'] at h1

/-- `sortStrs` sorts with respect to `strLe`. -/
theorem sorted_sortStrs (l : List String) : List.Sorted strLe (sortStrs l) := by
  haveI : IsTotal String strLe := ⟨fun a b => lexLe_total a.data b.data⟩
  haveI : IsTrans String strLe := ⟨fun a b c => lexLe_trans a.data b.data c.data⟩
  exact List.sorted_insertionSort strLe l

/-- Sorting does not change membership. -/
theorem mem_sortStrs {a : String} {l : List String} : a ∈ sortStrs l ↔ a ∈ l :=
  List.mem_insertionSort strLe

/-- `relAll` succeeds on paths under home and relativizes each of them. -/
theorem relAll_of_underHome (home : List String) :
    ∀ l : List (List String), (∀ d ∈ l, d.take home.length = home) →
      relAll home l = some (l.map (relStr home))
  | [], _ => rfl
  | d :: rest, h => by
    have hd : relative_to home d = some (relStr home d) := by
      simp [relative_to, h d (List.mem_cons_self d rest)]
    have ih := relAll_of_underHome home rest (fun x hx => h x (List.mem_cons_of_mem d hx))
    simp [relAll, hd, ih]

/-- `relAll` fails when some path of the list is not under home. -/
theorem relAll_eq_none_of_mem (home : List String) {d : List String} :
    ∀ {l : List (List String)}, d ∈ l → d.take home.length ≠ home → relAll home l = none := by
  intro l hd hout
  induction l with
  | nil => cases hd
  | cons x rest ih =>
    rcases List.mem_cons.1 hd with rfl | hmem
    · simp [relAll, relative_to, hout]
    · cases hx : relative_to home x <;> simp [relAll, hx, ih hmem]

/-- C1: the claim says `tmux_has_session` detects a live session whose name
equals the target via an exact/word-boundary match. It does not: the pattern
`f"\b{session}\b"` is a non-raw f-string, so it searches for backspace
characters around the name, which never occur in `tmux ls` output. Here the
session `proj` is live (first conjunct) yet the check returns false (second
conjunct). -/
theorem tmux_has_session_misses_live_session :
    "proj" ∈ ["proj"] ∧ tmux_has_session (tmuxLs ["proj"]) "proj" = false := by
  exact ⟨by decide, by decide⟩

/-- C2: the claim says `new_session` issues no create call when the target
session already exists, hence at most one create in two invocations. Because
`tmux_has_session` never matches (see C1), with the session `proj` live the
code issues one `tmux new-session` call per invocation: two in total. -/
theorem new_session_creates_despite_existing_session :
    "proj" ∈ ["proj"] ∧
    createCount (Muxer.new_session false (tmuxLs ["proj"]) (Muxer.make "proj" none none)) = 1 ∧
    createCount
      (Muxer.new_session false (tmuxLs ["proj"]) (Muxer.make "proj" none none) ++
        Muxer.new_session false (tmuxLs ["proj"]) (Muxer.make "proj" none none)) = 2 := by
  exact ⟨by decide, by decide, by decide⟩

/-- C6: `choose` returns no selection on an empty list, auto-accepts a
singleton without invoking the UI, and on two or more candidates invokes the
interactive UI exactly once, returning its result. -/
theorem choose_spec (ui : List String → Option String) (x : String) (l : List String)
    (h : 2 ≤ l.length) :
    choose ui [] = (none, 0) ∧ choose ui [x] = (some x, 0) ∧ choose ui l = (ui l, 1) := by
  refine ⟨rfl, rfl, ?_⟩
  cases l with
  | nil => exact absurd h (by decide)
  | cons a t =>
    cases t with
    | nil => simp at h
    | cons b t2 => rfl

/-- Witness for C6 at `[]`, `["solo"]` and `["a", "b"]`. -/
theorem choose_spec_witness :
    choose uiNone [] = (none, 0) ∧ choose uiNone ["solo"] = (some "solo", 0) ∧
      choose uiNone ["a", "b"] = (uiNone ["a", "b"], 1) :=
  choose_spec uiNone "solo" ["a", "b"] (by decide)

/-- C9 fails as stated: a whitespace-only token is truthy in Python, so
`[c.strip() for c in command if c]` keeps it and strips it to the empty
string, which is then passed to the executed process; the claim's reading
(remove all blank tokens) would drop it. -/
theorem log_and_run_blank_token_counterexample :
    strippedTokens [some "tmux", some "  "] = ["tmux", ""] ∧
    strippedTokens_claimC9 [some "tmux", some "  "] = ["tmux"] ∧
    "" ∈ strippedTokens [some "tmux", some "  "] := by
  exact ⟨by decide, by decide, by decide⟩

/-- C9 amended: `log_and_run` executes the command obtained by dropping falsy
tokens (`None` and the empty string — whitespace-only tokens survive as empty
arguments) and stripping the rest, and returns the stdout of that single
launch; the executed tokens are exactly the strips of the surviving inputs. -/
theorem log_and_run_amended (run : List String → String) (command : List (Option String)) :
    log_and_run run command = run (strippedTokens command) ∧
    (∀ t ∈ strippedTokens command, ∃ c : String, some c ∈ command ∧ c ≠ "" ∧ t = pyStrip c) ∧
    (∀ c : String, some c ∈ command → c ≠ "" → pyStrip c ∈ strippedTokens command) := by
  refine ⟨rfl, ?_, ?_⟩
  · intro t ht
    simp only [strippedTokens, List.mem_map, List.mem_filter, List.mem_filterMap, id] at ht
    obtain ⟨c, ⟨⟨⟨a, ha, hac⟩, hne⟩, hstrip⟩⟩ := ht
    subst hac
    exact ⟨c, ha, by simpa using hne, hstrip.symm⟩
  · intro c hc hne
    simp only [strippedTokens, List.mem_map, List.mem_filter, List.mem_filterMap, id]
    exact ⟨c, ⟨⟨some c, hc, rfl⟩, by simpa using hne⟩, rfl⟩

/-- Witness for C9 amended: the stripped ssh command token is executed. -/
theorem log_and_run_amended_witness :
    pyStrip " ssh myserver" ∈
      strippedTokens [some "tmux", some "new-session", none, some " ssh myserver"] :=
  (log_and_run_amended runNull [some "tmux", some "new-session", none, some " ssh myserver"]).2.2
    " ssh myserver" (by decide) (by decide)

/-- C3 fails as stated: for the rule file listing `~/proj.v2` (an existing,
non-hidden directory) and query `v2`, the final path segment `proj.v2`
contains the query, so the claim requires the directory in the output; the
code matches the query against `Path.stem` (`proj`), and returns the empty
list. `discover_directories_claimC3` is the claim's final-segment reading. -/
theorem stem_vs_final_segment_counterexample :
    get_local_directories fsC3 ["home", "u"] (some ["~/proj.v2"]) "v2" = some [] ∧
    discover_directories_claimC3 fsC3 ["home", "u"] (some ["~/proj.v2"]) "v2" =
      some ["proj.v2"] := by
  exact ⟨by decide, by decide⟩

/-- C8: when a candidate that survives the `valid` filter lies outside the
home tree, `get_local_directories` fails (the `ValueError` of `relative_to`
propagates; modelled as `none`) rather than silently skipping the entry; the
function is pure, so the behaviour is deterministic. -/
theorem outside_home_candidate_raises
    (fs : FS) (home rules : List (String)) (query : String) (d : List String)
    (hd : d ∈ validDirs fs home rules query) (hout : d.take home.length ≠ home) :
    get_local_directories fs home (some rules) query = none := by
  have h := relAll_eq_none_of_mem home hd hout
  simp [get_local_directories, Option.getD, h]

/-- Witness for C8: rule file listing `/opt/proj`, an existing directory
outside `/home/u`. -/
theorem outside_home_candidate_raises_witness :
    get_local_directories fsOpt ["home", "u"] (some ["/opt/proj"]) "" = none :=
  outside_home_candidate_raises fsOpt ["home", "u"] ["/opt/proj"] "" ["opt", "proj"]
    (by decide) (by decide)

/-- A single rule line only extends the exclusion set. -/
theorem excludes_mono (fs : FS) (home : List String) (st : RuleState) (line : String) :
    st.excludes ⊆ (processLine fs home st line).excludes := by
  unfold processLine
  by_cases h : pyStartswith line "!" = true <;> simp [h, List.subset_append_left]

/-- The exclusion set only grows along the rule-file loop. -/
theorem excludes_subset_foldl (fs : FS) (home : List String) :
    ∀ (rules : List String) (st : RuleState),
      st.excludes ⊆ (rules.foldl (processLine fs home) st).excludes
  | [], _ => fun _ h => h
  | l :: rest, st => fun _ hx =>
    excludes_subset_foldl fs home rest (processLine fs home st l)
      (excludes_mono fs home st l hx)

/-- The path named by a `!` line ends up in the final exclusion set. -/
theorem mem_excludes_foldl (fs : FS) (home : List String) {line : String}
    (hx : pyStartswith line "!" = true) :
    ∀ (rules : List String) (st : RuleState), line ∈ rules →
      expanduser home (pyDrop line 1) ∈ (rules.foldl (processLine fs home) st).excludes
  | [], _, h => absurd h (List.not_mem_nil _)
  | l :: rest, st, h => by
    rcases List.mem_cons.1 h with rfl | hmem
    · apply excludes_subset_foldl fs home rest (processLine fs home st line)
      simp [processLine, hx]
    · exact mem_excludes_foldl fs home hx rest (processLine fs home st l) hmem

/-- C5: a path named by an exclusion-marker line never survives the `valid`
filter of `get_local_directories` (whatever the query and however the path
was produced), so it is never present in the output, which consists of the
home-relative images of `validDirs`. -/
theorem excluded_path_never_in_validDirs
    (fs : FS) (home rules : List String) (query line : String)
    (hl : line ∈ rules) (hx : pyStartswith line "!" = true) :
    expanduser home (pyDrop line 1) ∉ validDirs fs home rules query := by
  intro hmem
  have hex : expanduser home (pyDrop line 1) ∈ (ruleState fs home rules).excludes :=
    mem_excludes_foldl fs home hx rules (RuleState.mk [] []) hl
  have hv := (List.mem_filter.1 hmem).2
  simp only [valid, Bool.and_eq_true, Bool.not_eq_true', decide_eq_true_eq,
    decide_eq_false_iff_not] at hv
  exact hv.2 hex

/-- Witness for C5: `!~/code/x` excludes the existing directory `~/code/x`
also listed literally. -/
theorem excluded_path_never_in_validDirs_witness :
    expanduser ["home", "u"] (pyDrop "!~/code/x" 1) ∉
      validDirs fsCX ["home", "u"] ["!~/code/x", "~/code/x"] "" :=
  excluded_path_never_in_validDirs fsCX ["home", "u"] ["!~/code/x", "~/code/x"] "" "!~/code/x"
    (by decide) (by decide)

/-- The rule-file loop on the built-in defaults: three literal directories and
the glob expansion of `~/code`. -/
theorem ruleState_default (fs : FS) (home : List String) :
    ruleState fs home defaultCandidates =
      RuleState.mk
        ([home ++ ["notes"], home ++ ["Syncthing"], home ++ ["scratch"]] ++
          globStar fs (home ++ ["code"])) [] := rfl

/-- Every candidate produced from the built-in defaults lies under home. -/
theorem default_dirs_under_home (fs : FS) (home : List String) :
    ∀ d ∈ (ruleState fs home defaultCandidates).directories, d.take home.length = home := by
  intro d hd
  rw [ruleState_default] at hd
  rcases List.mem_append.1 hd with h | h
  · simp only [List.mem_cons, List.not_mem_nil, or_false] at h
    rcases h with rfl | rfl | rfl
    · exact List.take_left home ["notes"]
    · exact List.take_left home ["Syncthing"]
    · exact List.take_left home ["scratch"]
  · have hp := (List.mem_filter.1 h).2
    simp only [decide_eq_true_eq] at hp
    obtain ⟨hlen, htake, hhid⟩ := hp
    have hlen' : (home ++ ["code"]).length = home.length + 1 := by simp
    have h1 : d.take home.length = (d.take ((home ++ ["code"]).length)).take home.length := by
      rw [List.take_take, hlen']
      have : min home.length (home.length + 1) = home.length :=
        Nat.min_eq_left (Nat.le_succ _)
      rw [this]
    rw [h1, htake, List.take_left home ["code"]]

/-- C7 amended: with the rule file absent, directory discovery runs on the
built-in default candidate list and always produces a result (never fails);
with the SSH config absent, `get_ssh_hosts` raises an uncaught
`FileNotFoundError` — a Python traceback, not a clean configuration-error
message. -/
theorem missing_file_behaviour (fs : FS) (home : List String) (query : String) :
    (∃ out, get_local_directories fs home none query = some out) ∧
    get_local_directories fs home none query =
      get_local_directories fs home (some defaultCandidates) query ∧
    get_ssh_hosts_io none query =
      Except.error (Failure.uncaughtException "FileNotFoundError") := by
  refine ⟨?_, rfl, rfl⟩
  have hunder : ∀ d ∈ validDirs fs home defaultCandidates query, d.take home.length = home :=
    fun d hd => default_dirs_under_home fs home d (List.mem_filter.1 hd).1
  show ∃ out, (relAll home (validDirs fs home defaultCandidates query)).map sortStrs = some out
  rw [relAll_of_underHome home _ hunder]
  exact ⟨_, rfl⟩

/-- C7 fails as stated for the SSH half: with `~/.ssh/config` absent, the
`read_text()` call raises `FileNotFoundError` and no handler exists anywhere
in the program, so the user sees a Python traceback rather than a clearly
reported configuration error. -/
theorem ssh_missing_config_counterexample :
    get_ssh_hosts_io none "" =
      Except.error (Failure.uncaughtException "FileNotFoundError") := rfl

/-- `hostStep` appends to its accumulator. -/
theorem hostStep_acc (acc : List String) (line : String) :
    hostStep acc line = acc ++ hostStep [] line := by
  unfold hostStep
  by_cases h : (pyStartswith line "Host" && !(containsChar line '*')) = true <;> simp [h]

/-- Folding `hostStep` from any accumulator just appends to it. -/
theorem foldl_hostStep : ∀ (config : List String) (acc : List String),
    config.foldl hostStep acc = acc ++ config.foldl hostStep []
  | [], acc => by simp
  | l :: rest, acc => by
    show rest.foldl hostStep (hostStep acc l) = acc ++ rest.foldl hostStep (hostStep [] l)
    rw [foldl_hostStep rest (hostStep acc l), foldl_hostStep rest (hostStep [] l),
      hostStep_acc acc l, List.append_assoc]

/-- The token accumulation splits at the head line. -/
theorem hostTokens_cons (l : String) (rest : List String) :
    hostTokens (l :: rest) = hostStep [] l ++ hostTokens rest := by
  show rest.foldl hostStep (hostStep [] l) = _
  rw [foldl_hostStep rest (hostStep [] l)]
  rfl

/-- Provenance: every accumulated alias token comes from a line starting with
`Host` and containing no wildcard. -/
theorem hostTokens_mem : ∀ (config : List String) {a : String}, a ∈ hostTokens config →
    ∃ line ∈ config, pyStartswith line "Host" = true ∧ containsChar line '*' = false ∧
      a ∈ (pySplitWs line).drop 1
  | [], a, h => absurd h (List.not_mem_nil a)
  | l :: rest, a, h => by
    rw [hostTokens_cons] at h
    rcases List.mem_append.1 h with h1 | h2
    · by_cases hc : (pyStartswith l "Host" && !(containsChar l '*')) = true
      · have hcc := Bool.and_eq_true _ _ ▸ hc
        refine ⟨l, List.mem_cons_self l rest, hcc.1, by simpa using hcc.2, ?_⟩
        simpa [hostStep, hc] using h1
      · simp [hostStep, hc] at h1
    · obtain ⟨line, hline, hrest⟩ := hostTokens_mem rest h2
      exact ⟨line, List.mem_cons_of_mem l hline, hrest⟩

/-- Completeness: a qualifying line's alias tokens are all accumulated. -/
theorem mem_hostTokens : ∀ (config : List String) {line a : String}, line ∈ config →
    pyStartswith line "Host" = true → containsChar line '*' = false →
    a ∈ (pySplitWs line).drop 1 → a ∈ hostTokens config
  | [], _, _, h, _, _, _ => absurd h (List.not_mem_nil _)
  | l :: rest, line, a, hl, hh, hw, ha => by
    rw [hostTokens_cons]
    rcases List.mem_cons.1 hl with rfl | hmem
    · apply List.mem_append_left
      have hstep : hostStep [] line = (pySplitWs line).drop 1 := by
        simp [hostStep, hh, hw]
      rw [hstep]
      exact ha
    · exact List.mem_append_right _ (mem_hostTokens rest hmem hh hw ha)

/-- C4: every entry of `get_ssh_hosts` carries the fixed `"ssh: "` marker and
stems from a line starting with `Host` and free of the wildcard token; the
result is sorted; and on the scenario config
`Host myserver` / indented `HostName 1.2.3.4` / `Host *.internal` with empty
query, the result is exactly `["ssh: myserver"]`. -/
theorem get_ssh_hosts_spec (config : List String) (query : String) :
    (∀ s ∈ get_ssh_hosts config query, ∃ line ∈ config,
        pyStartswith line "Host" = true ∧ containsChar line '*' = false ∧
        ∃ a ∈ (pySplitWs line).drop 1, s = "ssh: " ++ a) ∧
    List.Sorted strLe (get_ssh_hosts config query) ∧
    get_ssh_hosts demoSshConfig "" = ["ssh: myserver"] := by
  refine ⟨?_, sorted_sortStrs _, by decide⟩
  intro s hs
  unfold get_ssh_hosts at hs
  rw [mem_sortStrs] at hs
  obtain ⟨c, hc, rfl⟩ := List.mem_map.1 hs
  have hc' : c ∈ hostTokens config := by
    by_cases hq : query ≠ ""
    · rw [if_pos hq] at hc
      exact (List.mem_filter.1 hc).1
    · rw [if_neg hq] at hc
      exact hc
  obtain ⟨line, hline, hh, hw, ha⟩ := hostTokens_mem config hc'
  exact ⟨line, hline, hh, hw, c, ha, rfl⟩

/-- Witness for C4: the scenario result and the provenance of its only entry. -/
theorem get_ssh_hosts_spec_witness :
    get_ssh_hosts demoSshConfig "" = ["ssh: myserver"] ∧
    ∃ line ∈ demoSshConfig, pyStartswith line "Host" = true ∧
      containsChar line '*' = false ∧
      ∃ a ∈ (pySplitWs line).drop 1, "ssh: myserver" = "ssh: " ++ a :=
  ⟨(get_ssh_hosts_spec demoSshConfig "").2.2,
   (get_ssh_hosts_spec demoSshConfig "").1 "ssh: myserver" (by decide)⟩

/-- C10: any unindented line that merely starts with the four characters
`Host` and contains no `*` — such as a top-level `HostName 1.2.3.4` — is
treated as a host declaration: each of its whitespace-separated value tokens
matching the query is returned with the `"ssh: "` marker. -/
theorem host_keyword_lines_include_hostname
    (config : List String) (query line a : String)
    (hl : line ∈ config) (hh : pyStartswith line "Host" = true)
    (hw : containsChar line '*' = false) (ha : a ∈ (pySplitWs line).drop 1)
    (hq : pyIn query a = true) :
    ("ssh: " ++ a) ∈ get_ssh_hosts config query := by
  have htok : a ∈ hostTokens config := mem_hostTokens config hl hh hw ha
  unfold get_ssh_hosts
  rw [mem_sortStrs]
  apply List.mem_map_of_mem
  by_cases hq0 : query ≠ ""
  · rw [if_pos hq0]
    exact List.mem_filter.2 ⟨htok, hq⟩
  · rw [if_neg hq0]
    exact htok

/-- Witness for C10: an unindented `HostName 1.2.3.4` line yields the entry
`ssh: 1.2.3.4` for the empty query. -/
theorem host_keyword_lines_include_hostname_witness :
    ("ssh: " ++ "1.2.3.4") ∈ get_ssh_hosts ["HostName 1.2.3.4"] "" :=
  host_keyword_lines_include_hostname ["HostName 1.2.3.4"] "" "HostName 1.2.3.4" "1.2.3.4"
    (by decide) (by decide) (by decide) (by decide) (by decide)

/-- Unfold the `valid` filter into its four conditions. -/
theorem valid_eq_true_iff (fs : FS) (excludes : List (List String)) (query : String)
    (dir : List String) :
    valid fs excludes query dir = true ↔
      pyIn query (pyStem (lastSeg dir)) = true ∧ dir ∈ fs.dirs ∧
      pyStartswith (pyStem (lastSeg dir)) "." = false ∧ dir ∉ excludes := by
  simp [valid, Bool.and_eq_true, Bool.not_eq_true', decide_eq_true_eq,
    decide_eq_false_iff_not, and_assoc]

/-- On a rule file without exclusion or wildcard lines, the loop collects
exactly the expanded lines, in order, and excludes nothing. -/
theorem foldl_no_marker (fs : FS) (home : List String) :
    ∀ (rules : List String) (st : RuleState),
      (∀ l ∈ rules, pyStartswith l "!" = false ∧ pyEndswith l "*" = false) →
      rules.foldl (processLine fs home) st =
        RuleState.mk (st.directories ++ rules.map (expanduser home)) st.excludes
  | [], st, _ => by simp
  | l :: rest, st, h => by
    have h1 := h l (List.mem_cons_self l rest)
    have hstep : processLine fs home st l =
        RuleState.mk (st.directories ++ [expanduser home l]) st.excludes := by
      simp [processLine, h1.1, h1.2]
    show rest.foldl (processLine fs home) (processLine fs home st l) = _
    rw [hstep, foldl_no_marker fs home rest _ (fun x hx => h x (List.mem_cons_of_mem l hx))]
    simp

/-- C3 amended: for every rule file with no exclusion-marker and no wildcard
lines, all of whose entries lie under home, `get_local_directories` returns
exactly the listed paths that are existing directories whose *stem* (final
path segment minus its last dot-suffix — the code tests `Path.stem`, not the
full final segment) is non-hidden and contains the query as a case-sensitive
substring, each mapped to its home-relative representation, sorted
lexicographically. -/
theorem get_local_directories_plain_characterization
    (fs : FS) (home rules : List String) (query : String)
    (hplain : ∀ l ∈ rules, pyStartswith l "!" = false ∧ pyEndswith l "*" = false)
    (hhome : ∀ l ∈ rules, (expanduser home l).take home.length = home) :
    ∃ out, get_local_directories fs home (some rules) query = some out ∧
      List.Sorted strLe out ∧
      ∀ s, s ∈ out ↔ ∃ l ∈ rules,
        expanduser home l ∈ fs.dirs ∧
        pyIn query (pyStem (lastSeg (expanduser home l))) = true ∧
        pyStartswith (pyStem (lastSeg (expanduser home l))) "." = false ∧
        relative_to home (expanduser home l) = some s := by
  have hstate : ruleState fs home rules = RuleState.mk (rules.map (expanduser home)) [] := by
    simpa [ruleState] using foldl_no_marker fs home rules (RuleState.mk [] []) hplain
  have hvd : validDirs fs home rules query =
      (rules.map (expanduser home)).filter (valid fs [] query) := by
    simp [validDirs, hstate]
  have hunder : ∀ d ∈ validDirs fs home rules query, d.take home.length = home := by
    intro d hd
    rw [hvd] at hd
    obtain ⟨l, hl, rfl⟩ := List.mem_map.1 (List.mem_filter.1 hd).1
    exact hhome l hl
  have hrel := relAll_of_underHome home _ hunder
  refine ⟨sortStrs ((validDirs fs home rules query).map (relStr home)), ?_,
    sorted_sortStrs _, ?_⟩
  · simp [get_local_directories, hrel]
  intro s
  rw [mem_sortStrs]
  constructor
  · intro hs
    obtain ⟨d, hd, rfl⟩ := List.mem_map.1 hs
    have hdu := hunder d hd
    rw [hvd] at hd
    have hmf := List.mem_filter.1 hd
    obtain ⟨l, hl, rfl⟩ := List.mem_map.1 hmf.1
    obtain ⟨hq, hdirs, hhid, _⟩ := (valid_eq_true_iff fs [] query _).1 hmf.2
    exact ⟨l, hl, hdirs, hq, hhid, by simp [relative_to, hdu]⟩
  · rintro ⟨l, hl, hdirs, hq, hhid, hrel_eq⟩
    have hdu := hhome l hl
    have hs : relStr home (expanduser home l) = s := by
      have heq : relative_to home (expanduser home l) =
          some (relStr home (expanduser home l)) := by
        simp [relative_to, hdu]
      rw [heq] at hrel_eq
      exact Option.some.inj hrel_eq
    rw [← hs]
    apply List.mem_map_of_mem
    rw [hvd]
    exact List.mem_filter.2 ⟨List.mem_map_of_mem _ hl,
      (valid_eq_true_iff fs [] query _).2 ⟨hq, hdirs, hhid, List.not_mem_nil _⟩⟩

/-- Witness for C3 amended: a concrete rule file with two plain entries,
returned sorted and characterized as stated. -/
theorem get_local_directories_plain_characterization_witness :
    ∃ out, get_local_directories fsAB ["home", "u"] (some ["~/beta", "~/alpha"]) "" = some out ∧
      List.Sorted strLe out ∧
      ∀ s, s ∈ out ↔ ∃ l ∈ ["~/beta", "~/alpha"],
        expanduser ["home", "u"] l ∈ fsAB.dirs ∧
        pyIn "" (pyStem (lastSeg (expanduser ["home", "u"] l))) = true ∧
        pyStartswith (pyStem (lastSeg (expanduser ["home", "u"] l))) "." = false ∧
        relative_to ["home", "u"] (expanduser ["home", "u"] l) = some s :=
  get_local_directories_plain_characterization fsAB ["home", "u"] ["~/beta", "~/alpha"] ""
    (by decide) (by decide)
